import Mathlib

/-!
Verification of the exception-tracking library (react-native-exception).

The definitions below are a shallow embedding of the TypeScript sources:

* `src/domain/entities/ExceptionEntity.ts` — the record model and
  `shouldReportException`;
* `src/infrastructure/storage/ExceptionStore.ts` — the bounded in-memory
  store (`addException`, `markAsHandled`, `markAsReported`,
  `clearExceptions`);
* the `ExceptionHandler` service — `sanitizeMessage`, `sanitizeContext`,
  `sanitizeException`;
* the `ExceptionReporter` service — `reportException`, `getConsoleLevel`;
* the `ExceptionLogger` service — `logException`, `getExceptionStats`.

Modelling conventions: JavaScript strings are Lean `String`; the free-form
`context` object is an association list of string keys to string values,
where the empty string models a falsy value; timestamps are `Nat`; the
network transport (`fetch`) is an oracle argument recording whether the
single request resolved with a boolean `ok` status or threw.
-/

/-- Severity levels, from `ExceptionEntity.ts` (`ExceptionSeverity`). -/
inductive ExceptionSeverity where
  | fatal
  | error
  | warning
  | info
deriving DecidableEq, Repr

/-- Categories, from `ExceptionEntity.ts` (`ExceptionCategory`). -/
inductive ExceptionCategory where
  | network
  | validation
  | authentication
  | authorization
  | businessLogic
  | system
  | storage
  | unknown
deriving DecidableEq, Repr

/-- The free-form `context` mapping: string keys to string values.
The empty string models a JavaScript falsy value. -/
abbrev ExceptionContext : Type := List (String × String)

/-- The exception record, from `ExceptionEntity.ts` (`ExceptionEntity`). -/
structure ExceptionEntity where
  id : String
  message : String
  stack : Option String
  severity : ExceptionSeverity
  category : ExceptionCategory
  context : ExceptionContext
  timestamp : Nat
  handled : Bool
  reported : Bool
deriving DecidableEq, Repr

/-- From `ExceptionEntity.ts`, `shouldReportException`: warnings and info
are not reported, validation errors are not reported, everything else is. -/
def shouldReportException (e : ExceptionEntity) : Bool :=
  if e.severity = ExceptionSeverity.warning ∨ e.severity = ExceptionSeverity.info then
    false
  else if e.category = ExceptionCategory.validation then
    false
  else
    true

/-- The Zustand store state, from `ExceptionStore.ts`. -/
structure ExceptionStore where
  exceptions : List ExceptionEntity
  lastError : Option ExceptionEntity
  errorCount : Nat
deriving Repr

/-- The initial store state in `create(...)`. -/
def initialStore : ExceptionStore :=
  { exceptions := [], lastError := none, errorCount := 0 }

/-- From `ExceptionStore.ts`, `addException`: prepend, keep the first 100
(`[exception, ...exceptions].slice(0, 100)`), set last error, bump the
lifetime counter. -/
def addException (s : ExceptionStore) (e : ExceptionEntity) : ExceptionStore :=
  { s with
    exceptions := (e :: s.exceptions).take 100
    lastError := some e
    errorCount := s.errorCount + 1 }

/-- From `ExceptionStore.ts`, `markAsHandled`: map over the held sequence,
replacing each record whose id matches by a copy with `handled := true`. -/
def markAsHandled (s : ExceptionStore) (exceptionId : String) : ExceptionStore :=
  { s with
    exceptions := s.exceptions.map fun ex =>
      if ex.id = exceptionId then { ex with handled := true } else ex }

/-- From `ExceptionStore.ts`, `markAsReported`: same shape as
`markAsHandled` with `reported := true`. -/
def markAsReported (s : ExceptionStore) (exceptionId : String) : ExceptionStore :=
  { s with
    exceptions := s.exceptions.map fun ex =>
      if ex.id = exceptionId then { ex with reported := true } else ex }

/-- From `ExceptionStore.ts`, `clearExceptions`: `set` with just
`exceptions: []` and `lastError: null`; `errorCount` is not in the patch. -/
def clearExceptions (s : ExceptionStore) : ExceptionStore :=
  { s with exceptions := [], lastError := none }

/-- Folding a list of additions into the store, newest last in the list. -/
def addRun (es : List ExceptionEntity) : ExceptionStore :=
  es.foldl addException initialStore

/-- JavaScript regex whitespace class `\s` (the characters relevant to
`[^&\s]` in `sanitizeMessage`). -/
def isJsWhitespace (c : Char) : Bool :=
  c == ' ' || c == '\t' || c == '\n' || c.val == 11 || c.val == 12 || c == '\r' ||
  c.val == 0xa0 || c.val == 0x1680 ||
  (decide (0x2000 ≤ c.val) && decide (c.val ≤ 0x200a)) ||
  c.val == 0x2028 || c.val == 0x2029 || c.val == 0x202f || c.val == 0x205f ||
  c.val == 0x3000 || c.val == 0xfeff

/-- A character matched by `[^&\s]` in the redaction regexes. -/
def isValueChar (c : Char) : Bool :=
  !(c == '&' || isJsWhitespace c)

/-- Case-insensitive literal match of a pattern against the front of a
character list, returning the remainder on success. Models the `i` flag of
the redaction regexes (ASCII case folding, as in `Char.toLower`). -/
def ciMatch : List Char → List Char → Option (List Char)
  | [], rest => some rest
  | _ :: _, [] => none
  | p :: ps, c :: cs => if p.toLower = c.toLower then ciMatch ps cs else none

/-- Greedy consumption of `[^&\s]*`: drop the maximal run of value
characters. -/
def dropValue : List Char → List Char
  | [] => []
  | c :: cs => if isValueChar c then dropValue cs else c :: cs

/-- One global regex replacement pass, as in
`message.replace(/KEY[^&\s]*／gi, REPL)` for a literal key `k0 :: ks`:
scan left to right; at a match emit the replacement and resume after the
greedily consumed value; otherwise copy one character. The fuel argument
only bounds recursion depth; one character is consumed per step, so fuel
equal to the list length is always sufficient (`replaceKeyAux_fuel`). -/
def replaceKeyAux (k0 : Char) (ks repl : List Char) : Nat → List Char → List Char
  | _, [] => []
  | 0, l => l
  | fuel + 1, c :: cs =>
    match ciMatch (k0 :: ks) (c :: cs) with
    | some rest => repl ++ replaceKeyAux k0 ks repl fuel (dropValue rest)
    | none => c :: replaceKeyAux k0 ks repl fuel cs

/-- Global case-insensitive replace of `key` followed by a `[^&\s]*` run by
the literal `repl`, over a whole string. -/
def replaceAll (key repl s : String) : String :=
  match key.data with
  | [] => s
  | k0 :: ks => String.mk (replaceKeyAux k0 ks repl.data s.data.length s.data)

/-- From `ExceptionHandler.sanitizeMessage`: three sequential global
replaces, `password=` first, then `token=`, then `key=`. -/
def sanitizeMessage (message : String) : String :=
  replaceAll "key=" "key=***"
    (replaceAll "token=" "token=***"
      (replaceAll "password=" "password=***" message))

/-- The deny-list of `ExceptionHandler.sanitizeContext`. -/
def sensitiveFields : List String :=
  ["password", "token", "apiKey", "secret"]

/-- From `ExceptionHandler.sanitizeContext`: for each deny-listed field,
`if (sanitized[field]) sanitized[field] = mask` — the mask is written only
when the current value is truthy (here: a non-empty string). Other keys
are untouched; no recursion into nested values. -/
def sanitizeContext (context : ExceptionContext) : ExceptionContext :=
  context.map fun kv =>
    if kv.1 ∈ sensitiveFields ∧ kv.2 ≠ "" then (kv.1, "***") else kv

/-- From `ExceptionHandler.sanitizeException`: spread the record, replacing
only `message` and `context` by their sanitized forms. -/
def sanitizeException (e : ExceptionEntity) : ExceptionEntity :=
  { e with
    message := sanitizeMessage e.message
    context := sanitizeContext e.context }

/-- Reporter environments, from `ExceptionReporterConfig`. -/
inductive Environment where
  | development
  | staging
  | production
deriving DecidableEq, Repr

/-- Reporter configuration, from `ExceptionReporter`. The `endpoint`
option is `none` when the JavaScript value is falsy (absent or empty). -/
structure ExceptionReporterConfig where
  enabled : Bool
  endpoint : Option String
  apiKey : Option String
  environment : Environment
deriving DecidableEq, Repr

/-- Console channels used by the reporter: `console.error`,
`console.warn`, `console.log` (the last is the info-level channel). -/
inductive ConsoleLevel where
  | error
  | warn
  | log
deriving DecidableEq, Repr

/-- From `ExceptionReporter.getConsoleLevel`. -/
def getConsoleLevel : ExceptionSeverity → ConsoleLevel
  | ExceptionSeverity.fatal => ConsoleLevel.error
  | ExceptionSeverity.error => ConsoleLevel.error
  | ExceptionSeverity.warning => ConsoleLevel.warn
  | _ => ConsoleLevel.log

/-- Outcome of the single `fetch` call the transport may perform: it either
resolves with a response whose `ok` flag is the boolean, or it throws. -/
inductive FetchOutcome where
  | success (ok : Bool)
  | thrown
deriving DecidableEq, Repr

/-- Observable effects of one `reportException` call: its boolean return,
how many network requests were issued, and which console lines were
written. -/
structure ReportOutcome where
  result : Bool
  networkCalls : Nat
  consoleLines : List ConsoleLevel
deriving DecidableEq, Repr

/-- From `ExceptionReporter.reportException`: disabled reporters return
false with no I/O; in development the record goes to the console at the
severity-chosen level and the call returns true; otherwise with an
endpoint a single `fetch` is performed and its `ok` flag returned, a
thrown transport error being caught (with a diagnostic `console.warn`)
and converted to false; with no endpoint the call returns false. -/
def reportException (cfg : ExceptionReporterConfig) (e : ExceptionEntity)
    (transport : FetchOutcome) : ReportOutcome :=
  if cfg.enabled = false then
    { result := false, networkCalls := 0, consoleLines := [] }
  else if cfg.environment = Environment.development then
    { result := true, networkCalls := 0, consoleLines := [getConsoleLevel e.severity] }
  else
    match cfg.endpoint with
    | some _ =>
      match transport with
      | FetchOutcome.success ok =>
        { result := ok, networkCalls := 1, consoleLines := [] }
      | FetchOutcome.thrown =>
        { result := false, networkCalls := 1, consoleLines := [ConsoleLevel.warn] }
    | none => { result := false, networkCalls := 0, consoleLines := [] }

/-- From `ExceptionLogger.logException`: sanitize, `unshift` onto the
persisted list, and truncate (`splice(max)`) only when the length exceeds
`maxStoredExceptions` (default 100). -/
def logException (maxStored : Nat) (stored : List ExceptionEntity)
    (e : ExceptionEntity) : List ExceptionEntity :=
  let withNew := sanitizeException e :: stored
  if maxStored < withNew.length then withNew.take maxStored else withNew

/-- Per-severity counters of `getExceptionStats`, zero-initialized. -/
structure SeverityCounts where
  fatal : Nat
  error : Nat
  warning : Nat
  info : Nat
deriving DecidableEq, Repr

/-- Per-category counters of `getExceptionStats`, zero-initialized. -/
structure CategoryCounts where
  network : Nat
  validation : Nat
  authentication : Nat
  authorization : Nat
  businessLogic : Nat
  system : Nat
  storage : Nat
  unknown : Nat
deriving DecidableEq, Repr

/-- Result shape of `ExceptionLogger.getExceptionStats`. -/
structure ExceptionStats where
  total : Nat
  bySeverity : SeverityCounts
  byCategory : CategoryCounts
deriving DecidableEq, Repr

/-- The `bySeverity[ex.severity]++` step of `getExceptionStats`. -/
def bumpSeverity (r : SeverityCounts) : ExceptionSeverity → SeverityCounts
  | ExceptionSeverity.fatal => { r with fatal := r.fatal + 1 }
  | ExceptionSeverity.error => { r with error := r.error + 1 }
  | ExceptionSeverity.warning => { r with warning := r.warning + 1 }
  | ExceptionSeverity.info => { r with info := r.info + 1 }

/-- The `byCategory[ex.category]++` step of `getExceptionStats`. -/
def bumpCategory (r : CategoryCounts) : ExceptionCategory → CategoryCounts
  | ExceptionCategory.network => { r with network := r.network + 1 }
  | ExceptionCategory.validation => { r with validation := r.validation + 1 }
  | ExceptionCategory.authentication => { r with authentication := r.authentication + 1 }
  | ExceptionCategory.authorization => { r with authorization := r.authorization + 1 }
  | ExceptionCategory.businessLogic => { r with businessLogic := r.businessLogic + 1 }
  | ExceptionCategory.system => { r with system := r.system + 1 }
  | ExceptionCategory.storage => { r with storage := r.storage + 1 }
  | ExceptionCategory.unknown => { r with unknown := r.unknown + 1 }

/-- From `ExceptionLogger.getExceptionStats`: the total is the length of
the currently stored (capped) list, and the breakdowns start from
all-zero records and are incremented by one `forEach` pass. -/
def getExceptionStats (stored : List ExceptionEntity) : ExceptionStats :=
  let counts := stored.foldl
    (fun acc ex => (bumpSeverity acc.1 ex.severity, bumpCategory acc.2 ex.category))
    (⟨0, 0, 0, 0⟩, ⟨0, 0, 0, 0, 0, 0, 0, 0⟩)
  { total := stored.length, bySeverity := counts.1, byCategory := counts.2 }

/-- A concrete record used to instantiate universally quantified theorems. -/
def witnessEntity : ExceptionEntity :=
  { id := "w1"
    message := "m"
    stack := none
    severity := ExceptionSeverity.error
    category := ExceptionCategory.unknown
    context := []
    timestamp := 0
    handled := false
    reported := false }

/-- A run of 101 additions, used to exercise the capacity bound. -/
def manyEntities : List ExceptionEntity :=
  List.replicate 101 witnessEntity

lemma take_append_take {α : Type} (n : Nat) (a b : List α) :
    (a ++ b.take n).take n = (a ++ b).take n := by
  rw [List.take_append_eq_append_take, List.take_append_eq_append_take, List.take_take]
  have h : (n - a.length) ⊓ n = n - a.length := by omega
  rw [h]

lemma foldl_addException (es : List ExceptionEntity) (s : ExceptionStore)
    (h100 : s.exceptions.length ≤ 100) :
    (es.foldl addException s).exceptions = (es.reverse ++ s.exceptions).take 100 ∧
    (es.foldl addException s).errorCount = s.errorCount + es.length := by
  induction es generalizing s with
  | nil => simp [List.take_of_length_le h100]
  | cons e es ih =>
    have h := ih (addException s e) (by
      show ((e :: s.exceptions).take 100).length ≤ 100
      simp [List.length_take])
    rw [List.foldl_cons]
    refine ⟨?_, ?_⟩
    · rw [h.1]
      show (es.reverse ++ (addException s e).exceptions).take 100 = _
      have hx : (addException s e).exceptions = (e :: s.exceptions).take 100 := rfl
      rw [hx, take_append_take, List.reverse_cons, List.append_assoc]
      rfl
    · rw [h.2]
      show s.errorCount + 1 + es.length = s.errorCount + (es.length + 1)
      omega

/-- C1: adding N > 100 records leaves exactly 100 in the store, ordered
newest-first (the reverse of the addition order, truncated to 100), with
the lifetime counter equal to N; moreover no store operation can leave
more than 100 records behind: `addException` always truncates to 100,
the two mark operations preserve the length, and `clearExceptions`
empties the sequence. -/
theorem addException_capacity (es : List ExceptionEntity) (h : 100 < es.length) :
    (addRun es).exceptions = es.reverse.take 100 ∧
    (addRun es).exceptions.length = 100 ∧
    (addRun es).errorCount = es.length ∧
    (∀ (s : ExceptionStore) (e : ExceptionEntity),
      (addException s e).exceptions.length ≤ 100) ∧
    (∀ (s : ExceptionStore) (targetId : String),
      (markAsHandled s targetId).exceptions.length = s.exceptions.length) ∧
    (∀ (s : ExceptionStore) (targetId : String),
      (markAsReported s targetId).exceptions.length = s.exceptions.length) ∧
    (∀ s : ExceptionStore, (clearExceptions s).exceptions.length = 0) := by
  have hfold := foldl_addException es initialStore (by simp [initialStore])
  have hexc : (addRun es).exceptions = es.reverse.take 100 := by
    have := hfold.1
    simpa [addRun, initialStore] using this
  refine ⟨hexc, ?_, ?_, ?_, ?_, ?_, ?_⟩
  · rw [hexc]
    simp [List.length_take]
    omega
  · have := hfold.2
    simpa [addRun, initialStore] using this
  · intro s e
    simp [addException, List.length_take]
  · intro s targetId
    simp [markAsHandled]
  · intro s targetId
    simp [markAsReported]
  · intro s
    simp [clearExceptions]

/-- Witness for `addException_capacity` at a concrete run of 101
additions. -/
theorem addException_capacity_witness :
    100 < manyEntities.length ∧
    ((addRun manyEntities).exceptions = manyEntities.reverse.take 100 ∧
     (addRun manyEntities).exceptions.length = 100 ∧
     (addRun manyEntities).errorCount = manyEntities.length ∧
     (∀ (s : ExceptionStore) (e : ExceptionEntity),
       (addException s e).exceptions.length ≤ 100) ∧
     (∀ (s : ExceptionStore) (targetId : String),
       (markAsHandled s targetId).exceptions.length = s.exceptions.length) ∧
     (∀ (s : ExceptionStore) (targetId : String),
       (markAsReported s targetId).exceptions.length = s.exceptions.length) ∧
     (∀ s : ExceptionStore, (clearExceptions s).exceptions.length = 0)) :=
  ⟨by simp [manyEntities], addException_capacity manyEntities (by simp [manyEntities])⟩

/-- C2: `shouldReportException` depends only on severity and category; it
is false exactly when the severity is warning or info or the category is
validation, and true in every other case. -/
theorem shouldReportException_spec (e₁ e₂ : ExceptionEntity)
    (hs : e₁.severity = e₂.severity) (hc : e₁.category = e₂.category) :
    shouldReportException e₁ = shouldReportException e₂ ∧
    (shouldReportException e₁ = false ↔
      e₁.severity = ExceptionSeverity.warning ∨
      e₁.severity = ExceptionSeverity.info ∨
      e₁.category = ExceptionCategory.validation) ∧
    (shouldReportException e₁ = true ↔
      e₁.severity ≠ ExceptionSeverity.warning ∧
      e₁.severity ≠ ExceptionSeverity.info ∧
      e₁.category ≠ ExceptionCategory.validation) := by
  refine ⟨by simp [shouldReportException, hs, hc], ?_, ?_⟩
  · cases h1 : e₁.severity <;> cases h2 : e₁.category <;>
      simp [shouldReportException, h1, h2]
  · cases h1 : e₁.severity <;> cases h2 : e₁.category <;>
      simp [shouldReportException, h1, h2]

/-- Witness for `shouldReportException_spec` at a concrete record. -/
theorem shouldReportException_spec_witness :
    witnessEntity.severity = witnessEntity.severity ∧
    witnessEntity.category = witnessEntity.category ∧
    (shouldReportException witnessEntity = shouldReportException witnessEntity ∧
     (shouldReportException witnessEntity = false ↔
       witnessEntity.severity = ExceptionSeverity.warning ∨
       witnessEntity.severity = ExceptionSeverity.info ∨
       witnessEntity.category = ExceptionCategory.validation) ∧
     (shouldReportException witnessEntity = true ↔
       witnessEntity.severity ≠ ExceptionSeverity.warning ∧
       witnessEntity.severity ≠ ExceptionSeverity.info ∧
       witnessEntity.category ≠ ExceptionCategory.validation)) :=
  ⟨rfl, rfl, shouldReportException_spec witnessEntity witnessEntity rfl rfl⟩

/-- C8: `clearExceptions` empties the held sequence and resets the last
error, while the lifetime counter is untouched. -/
theorem clearExceptions_spec (s : ExceptionStore) :
    (clearExceptions s).exceptions = [] ∧
    (clearExceptions s).lastError = none ∧
    (clearExceptions s).errorCount = s.errorCount :=
  ⟨rfl, rfl, rfl⟩

/-- C10: `sanitizeException` changes at most `message` and `context`; the
seven remaining fields of the returned record are those of the input. -/
theorem sanitizeException_frame (e : ExceptionEntity) :
    (sanitizeException e).id = e.id ∧
    (sanitizeException e).stack = e.stack ∧
    (sanitizeException e).severity = e.severity ∧
    (sanitizeException e).category = e.category ∧
    (sanitizeException e).timestamp = e.timestamp ∧
    (sanitizeException e).handled = e.handled ∧
    (sanitizeException e).reported = e.reported :=
  ⟨rfl, rfl, rfl, rfl, rfl, rfl, rfl⟩

lemma markAsHandled_absent (s : ExceptionStore) (targetId : String)
    (h : ∀ e ∈ s.exceptions, e.id ≠ targetId) :
    markAsHandled s targetId = s := by
  cases s with
  | mk exceptions lastError errorCount =>
    simp only [markAsHandled]
    congr 1
    have hmap : (exceptions.map fun ex =>
        if ex.id = targetId then { ex with handled := true } else ex) =
        exceptions.map id :=
      List.map_congr_left (fun e he => by simp [h e he])
    rw [hmap, List.map_id]

lemma markAsReported_absent (s : ExceptionStore) (targetId : String)
    (h : ∀ e ∈ s.exceptions, e.id ≠ targetId) :
    markAsReported s targetId = s := by
  cases s with
  | mk exceptions lastError errorCount =>
    simp only [markAsReported]
    congr 1
    have hmap : (exceptions.map fun ex =>
        if ex.id = targetId then { ex with reported := true } else ex) =
        exceptions.map id :=
      List.map_congr_left (fun e he => by simp [h e he])
    rw [hmap, List.map_id]

/-- C7: the two mark operations act pointwise on the held sequence, so
ordering and length are preserved; the record at a position is replaced by
a value-copy whose flag is set when its id matches and is untouched
otherwise, so `handled` and `reported` only transition false to true; an
absent (for instance evicted) id leaves the whole store unchanged, and the
operations never touch `lastError` or `errorCount`. -/
theorem markOperations_spec (s : ExceptionStore) (targetId : String) (i : Nat)
    (ex : ExceptionEntity) (h : s.exceptions[i]? = some ex) :
    (markAsHandled s targetId).exceptions.length = s.exceptions.length ∧
    (markAsReported s targetId).exceptions.length = s.exceptions.length ∧
    (markAsHandled s targetId).exceptions[i]? =
      some (if ex.id = targetId then { ex with handled := true } else ex) ∧
    (markAsReported s targetId).exceptions[i]? =
      some (if ex.id = targetId then { ex with reported := true } else ex) ∧
    (ex.id ≠ targetId → (markAsHandled s targetId).exceptions[i]? = some ex ∧
      (markAsReported s targetId).exceptions[i]? = some ex) ∧
    (ex.handled = true → ∃ ex₂, (markAsHandled s targetId).exceptions[i]? = some ex₂ ∧
      ex₂.handled = true) ∧
    (ex.reported = true → ∃ ex₂, (markAsReported s targetId).exceptions[i]? = some ex₂ ∧
      ex₂.reported = true) ∧
    ((∀ e ∈ s.exceptions, e.id ≠ targetId) →
      markAsHandled s targetId = s ∧ markAsReported s targetId = s) ∧
    (markAsHandled s targetId).lastError = s.lastError ∧
    (markAsHandled s targetId).errorCount = s.errorCount ∧
    (markAsReported s targetId).lastError = s.lastError ∧
    (markAsReported s targetId).errorCount = s.errorCount := by
  have hh : (markAsHandled s targetId).exceptions[i]? =
      some (if ex.id = targetId then { ex with handled := true } else ex) := by
    simp [markAsHandled, List.getElem?_map, h]
  have hr : (markAsReported s targetId).exceptions[i]? =
      some (if ex.id = targetId then { ex with reported := true } else ex) := by
    simp [markAsReported, List.getElem?_map, h]
  refine ⟨by simp [markAsHandled], by simp [markAsReported], hh, hr, ?_, ?_, ?_, ?_,
    rfl, rfl, rfl, rfl⟩
  · intro hne
    rw [hh, hr]
    simp [hne]
  · intro hhd
    by_cases hid : ex.id = targetId
    · exact ⟨{ ex with handled := true }, by rw [hh]; simp [hid], rfl⟩
    · exact ⟨ex, by rw [hh]; simp [hid], hhd⟩
  · intro hrp
    by_cases hid : ex.id = targetId
    · exact ⟨{ ex with reported := true }, by rw [hr]; simp [hid], rfl⟩
    · exact ⟨ex, by rw [hr]; simp [hid], hrp⟩
  · intro habs
    exact ⟨markAsHandled_absent s targetId habs, markAsReported_absent s targetId habs⟩

/-- A concrete one-record store used to instantiate the mark theorems. -/
def witnessStore : ExceptionStore :=
  { exceptions := [witnessEntity], lastError := some witnessEntity, errorCount := 1 }

/-- Witness for `markOperations_spec` at a concrete store, id and index. -/
theorem markOperations_spec_witness :
    witnessStore.exceptions[0]? = some witnessEntity ∧
    ((markAsHandled witnessStore "w1").exceptions.length = witnessStore.exceptions.length ∧
     (markAsReported witnessStore "w1").exceptions.length = witnessStore.exceptions.length ∧
     (markAsHandled witnessStore "w1").exceptions[0]? =
       some (if witnessEntity.id = "w1" then { witnessEntity with handled := true }
         else witnessEntity) ∧
     (markAsReported witnessStore "w1").exceptions[0]? =
       some (if witnessEntity.id = "w1" then { witnessEntity with reported := true }
         else witnessEntity) ∧
     (witnessEntity.id ≠ "w1" →
       (markAsHandled witnessStore "w1").exceptions[0]? = some witnessEntity ∧
       (markAsReported witnessStore "w1").exceptions[0]? = some witnessEntity) ∧
     (witnessEntity.handled = true →
       ∃ ex₂, (markAsHandled witnessStore "w1").exceptions[0]? = some ex₂ ∧
         ex₂.handled = true) ∧
     (witnessEntity.reported = true →
       ∃ ex₂, (markAsReported witnessStore "w1").exceptions[0]? = some ex₂ ∧
         ex₂.reported = true) ∧
     ((∀ e ∈ witnessStore.exceptions, e.id ≠ "w1") →
       markAsHandled witnessStore "w1" = witnessStore ∧
       markAsReported witnessStore "w1" = witnessStore) ∧
     (markAsHandled witnessStore "w1").lastError = witnessStore.lastError ∧
     (markAsHandled witnessStore "w1").errorCount = witnessStore.errorCount ∧
     (markAsReported witnessStore "w1").lastError = witnessStore.lastError ∧
     (markAsReported witnessStore "w1").errorCount = witnessStore.errorCount) :=
  ⟨rfl, markOperations_spec witnessStore "w1" 0 witnessEntity rfl⟩

/-- C3 counterexample: the deny-list key `token` carries a falsy (empty)
value, and `sanitizeContext` leaves it unmasked rather than replacing it
with the mask, because the source guards the write with a truthiness
check on the current value. -/
theorem sanitizeContext_falsy_counterexample :
    sanitizeContext [("token", "")] = [("token", "")] ∧
    "token" ∈ sensitiveFields ∧
    sanitizeContext [("token", "")] ≠ [("token", "***")] := by
  refine ⟨rfl, by decide, by decide⟩

/-- C3 amended: `sanitizeContext` preserves the key sequence and masks
exactly the deny-listed keys whose value is truthy (non-empty); a
deny-listed key with an empty value and every non-deny-listed key pass
through unchanged. The example from the spec holds as stated. -/
theorem sanitizeContext_spec (context : ExceptionContext) (k v : String) (i : Nat)
    (h : context[i]? = some (k, v)) :
    (sanitizeContext context).length = context.length ∧
    (sanitizeContext context)[i]? =
      some (if k ∈ sensitiveFields ∧ v ≠ "" then (k, "***") else (k, v)) ∧
    sanitizeContext [("token", "xyz"), ("userId", "42")] =
      [("token", "***"), ("userId", "42")] := by
  refine ⟨by simp [sanitizeContext], ?_, by decide⟩
  simp [sanitizeContext, List.getElem?_map, h]

/-- Witness for `sanitizeContext_spec` at the spec's example context. -/
theorem sanitizeContext_spec_witness :
    ([("token", "xyz"), ("userId", "42")] : ExceptionContext)[0]? =
      some ("token", "xyz") ∧
    ((sanitizeContext [("token", "xyz"), ("userId", "42")]).length =
      ([("token", "xyz"), ("userId", "42")] : ExceptionContext).length ∧
     (sanitizeContext [("token", "xyz"), ("userId", "42")])[0]? =
       some (if "token" ∈ sensitiveFields ∧ "xyz" ≠ "" then ("token", "***")
         else ("token", "xyz")) ∧
     sanitizeContext [("token", "xyz"), ("userId", "42")] =
       [("token", "***"), ("userId", "42")]) :=
  ⟨rfl, sanitizeContext_spec [("token", "xyz"), ("userId", "42")] "token" "xyz" 0 rfl⟩

/-- A production configuration with an endpoint, for the reporter claims. -/
def prodConfig : ExceptionReporterConfig :=
  { enabled := true
    endpoint := some "https://collector.example"
    apiKey := none
    environment := Environment.production }

/-- A development configuration with an endpoint, for the reporter claims. -/
def devConfig : ExceptionReporterConfig :=
  { enabled := true
    endpoint := some "https://collector.example"
    apiKey := none
    environment := Environment.development }

/-- C5: with the reporter enabled in production and an endpoint
configured, `reportException` issues exactly one network request and
returns the boolean `ok` of the transport response; a transport that
throws is caught inside the reporter and converted to a false return
(the model is total, so nothing propagates past the call). -/
theorem reportException_production_spec (cfg : ExceptionReporterConfig)
    (e : ExceptionEntity) (transport : FetchOutcome) (url : String)
    (h1 : cfg.enabled = true) (h2 : cfg.environment = Environment.production)
    (h3 : cfg.endpoint = some url) :
    (reportException cfg e transport).networkCalls = 1 ∧
    (∀ ok : Bool, transport = FetchOutcome.success ok →
      (reportException cfg e transport).result = ok) ∧
    (transport = FetchOutcome.thrown →
      (reportException cfg e transport).result = false) := by
  cases transport <;> simp [reportException, h1, h2, h3]

/-- Witness for `reportException_production_spec` with a transport whose
response has `ok = false`. -/
theorem reportException_production_witness :
    prodConfig.enabled = true ∧
    prodConfig.environment = Environment.production ∧
    prodConfig.endpoint = some "https://collector.example" ∧
    ((reportException prodConfig witnessEntity (FetchOutcome.success false)).networkCalls = 1 ∧
     (∀ ok : Bool, FetchOutcome.success false = FetchOutcome.success ok →
       (reportException prodConfig witnessEntity (FetchOutcome.success false)).result = ok) ∧
     (FetchOutcome.success false = FetchOutcome.thrown →
       (reportException prodConfig witnessEntity (FetchOutcome.success false)).result = false)) :=
  ⟨rfl, rfl, rfl,
    reportException_production_spec prodConfig witnessEntity
      (FetchOutcome.success false) "https://collector.example" rfl rfl rfl⟩

/-- C6: with the reporter enabled in development, `reportException`
returns true and performs no network call regardless of the configured
endpoint; a single console line is written at the severity-chosen level:
fatal and error use the error channel, warning uses the warn channel, and
every other severity uses the default `console.log` channel (the
info-level sink). -/
theorem reportException_development_spec (cfg : ExceptionReporterConfig)
    (e : ExceptionEntity) (transport : FetchOutcome)
    (h1 : cfg.enabled = true) (h2 : cfg.environment = Environment.development) :
    (reportException cfg e transport).result = true ∧
    (reportException cfg e transport).networkCalls = 0 ∧
    (reportException cfg e transport).consoleLines = [getConsoleLevel e.severity] ∧
    getConsoleLevel ExceptionSeverity.fatal = ConsoleLevel.error ∧
    getConsoleLevel ExceptionSeverity.error = ConsoleLevel.error ∧
    getConsoleLevel ExceptionSeverity.warning = ConsoleLevel.warn ∧
    getConsoleLevel ExceptionSeverity.info = ConsoleLevel.log := by
  refine ⟨?_, ?_, ?_, rfl, rfl, rfl, rfl⟩ <;> simp [reportException, h1, h2]

/-- Witness for `reportException_development_spec` with an endpoint
configured, showing it is ignored in development. -/
theorem reportException_development_witness :
    devConfig.enabled = true ∧
    devConfig.environment = Environment.development ∧
    ((reportException devConfig witnessEntity FetchOutcome.thrown).result = true ∧
     (reportException devConfig witnessEntity FetchOutcome.thrown).networkCalls = 0 ∧
     (reportException devConfig witnessEntity FetchOutcome.thrown).consoleLines =
       [getConsoleLevel witnessEntity.severity] ∧
     getConsoleLevel ExceptionSeverity.fatal = ConsoleLevel.error ∧
     getConsoleLevel ExceptionSeverity.error = ConsoleLevel.error ∧
     getConsoleLevel ExceptionSeverity.warning = ConsoleLevel.warn ∧
     getConsoleLevel ExceptionSeverity.info = ConsoleLevel.log) :=
  ⟨rfl, rfl,
    reportException_development_spec devConfig witnessEntity FetchOutcome.thrown rfl rfl⟩

lemma logException_length (maxStored : Nat) (stored : List ExceptionEntity)
    (e : ExceptionEntity) :
    (logException maxStored stored e).length = min (stored.length + 1) maxStored := by
  show (if maxStored < (sanitizeException e :: stored).length
      then (sanitizeException e :: stored).take maxStored
      else sanitizeException e :: stored).length = min (stored.length + 1) maxStored
  by_cases hgt : maxStored < (sanitizeException e :: stored).length
  · rw [if_pos hgt]
    simp only [List.length_cons] at hgt
    simp only [List.length_take, List.length_cons]
    omega
  · rw [if_neg hgt]
    simp only [List.length_cons] at hgt ⊢
    omega

lemma foldl_logException_length (es stored : List ExceptionEntity)
    (h : stored.length ≤ 100) :
    (es.foldl (logException 100) stored).length = min (stored.length + es.length) 100 := by
  induction es generalizing stored with
  | nil => simp; omega
  | cons e es ih =>
    rw [List.foldl_cons]
    rw [ih (logException 100 stored e) (by rw [logException_length]; omega)]
    rw [logException_length]
    simp only [List.length_cons]
    omega

/-- C9 counterexample: after 101 `logException` additions into an empty
logger (the lifetime number of additions being 101), the stored list is
capped at 100 and `getExceptionStats` reports `total = 100`, the length
of the currently held list, not the lifetime counter 101. -/
theorem getExceptionStats_total_counterexample :
    ((List.replicate 101 witnessEntity).foldl (logException 100) []).length = 100 ∧
    (getExceptionStats
      ((List.replicate 101 witnessEntity).foldl (logException 100) [])).total = 100 ∧
    (100 : Nat) ≠ 101 := by
  have htot : ∀ l : List ExceptionEntity, (getExceptionStats l).total = l.length :=
    fun l => rfl
  have hlen : ((List.replicate 101 witnessEntity).foldl (logException 100) []).length = 100 := by
    rw [foldl_logException_length _ _ (by simp)]
    simp
  exact ⟨hlen, by rw [htot, hlen], by decide⟩

set_option maxRecDepth 4000 in
lemma statsFold_run (l : List ExceptionEntity) (accS : SeverityCounts)
    (accC : CategoryCounts) :
    l.foldl (fun acc ex => (bumpSeverity acc.1 ex.severity, bumpCategory acc.2 ex.category))
      (accS, accC) =
    (⟨accS.fatal + l.countP (fun ex => decide (ex.severity = ExceptionSeverity.fatal)),
      accS.error + l.countP (fun ex => decide (ex.severity = ExceptionSeverity.error)),
      accS.warning + l.countP (fun ex => decide (ex.severity = ExceptionSeverity.warning)),
      accS.info + l.countP (fun ex => decide (ex.severity = ExceptionSeverity.info))⟩,
     ⟨accC.network + l.countP (fun ex => decide (ex.category = ExceptionCategory.network)),
      accC.validation + l.countP (fun ex => decide (ex.category = ExceptionCategory.validation)),
      accC.authentication +
        l.countP (fun ex => decide (ex.category = ExceptionCategory.authentication)),
      accC.authorization +
        l.countP (fun ex => decide (ex.category = ExceptionCategory.authorization)),
      accC.businessLogic +
        l.countP (fun ex => decide (ex.category = ExceptionCategory.businessLogic)),
      accC.system + l.countP (fun ex => decide (ex.category = ExceptionCategory.system)),
      accC.storage + l.countP (fun ex => decide (ex.category = ExceptionCategory.storage)),
      accC.unknown + l.countP (fun ex => decide (ex.category = ExceptionCategory.unknown))⟩) := by
  induction l generalizing accS accC with
  | nil => simp
  | cons e l ih =>
    rw [List.foldl_cons, ih]
    cases hs : e.severity <;> cases hc : e.category <;>
      simp [bumpSeverity, bumpCategory, hs, hc, List.countP_cons] <;> omega

/-- C9 amended: `getExceptionStats` returns as `total` the count of the
currently held (capped) sequence — not a lifetime counter, as the
counterexample run shows — together with a breakdown of that sequence by
severity and by category in which every severity and every category is
present, the count being zero when no held record carries it. -/
theorem getExceptionStats_spec (stored : List ExceptionEntity) :
    getExceptionStats stored =
      { total := stored.length
        bySeverity :=
          ⟨stored.countP (fun ex => decide (ex.severity = ExceptionSeverity.fatal)),
           stored.countP (fun ex => decide (ex.severity = ExceptionSeverity.error)),
           stored.countP (fun ex => decide (ex.severity = ExceptionSeverity.warning)),
           stored.countP (fun ex => decide (ex.severity = ExceptionSeverity.info))⟩
        byCategory :=
          ⟨stored.countP (fun ex => decide (ex.category = ExceptionCategory.network)),
           stored.countP (fun ex => decide (ex.category = ExceptionCategory.validation)),
           stored.countP (fun ex => decide (ex.category = ExceptionCategory.authentication)),
           stored.countP (fun ex => decide (ex.category = ExceptionCategory.authorization)),
           stored.countP (fun ex => decide (ex.category = ExceptionCategory.businessLogic)),
           stored.countP (fun ex => decide (ex.category = ExceptionCategory.system)),
           stored.countP (fun ex => decide (ex.category = ExceptionCategory.storage)),
           stored.countP (fun ex => decide (ex.category = ExceptionCategory.unknown))⟩ } := by
  simp only [getExceptionStats, statsFold_run]
  simp only [Nat.zero_add]

lemma ciMatch_length (p : List Char) :
    ∀ (l r : List Char), ciMatch p l = some r → r.length + p.length = l.length := by
  induction p with
  | nil =>
    intro l r h
    simp [ciMatch] at h
    subst h
    simp
  | cons c cs ih =>
    intro l r h
    cases l with
    | nil => simp [ciMatch] at h
    | cons d ds =>
      simp only [ciMatch] at h
      by_cases hc : c.toLower = d.toLower
      · rw [if_pos hc] at h
        have := ih ds r h
        simp only [List.length_cons]
        omega
      · rw [if_neg hc] at h
        exact absurd h (by simp)

lemma dropValue_length (l : List Char) : (dropValue l).length ≤ l.length := by
  induction l with
  | nil => simp [dropValue]
  | cons c cs ih =>
    simp only [dropValue]
    split
    · simp only [List.length_cons]
      omega
    · exact le_refl _

lemma replaceKeyAux_fuel (k0 : Char) (ks repl : List Char) :
    ∀ (n m : Nat) (l : List Char), l.length ≤ n → l.length ≤ m →
      replaceKeyAux k0 ks repl n l = replaceKeyAux k0 ks repl m l := by
  intro n
  induction n with
  | zero =>
    intro m l h1 h2
    cases l with
    | nil => simp [replaceKeyAux]
    | cons c cs => simp at h1
  | succ n ih =>
    intro m l h1 h2
    cases l with
    | nil => simp [replaceKeyAux]
    | cons c cs =>
      cases m with
      | zero => simp at h2
      | succ m' =>
        simp only [replaceKeyAux]
        cases hm : ciMatch (k0 :: ks) (c :: cs) with
        | some rest =>
          simp only [hm]
          have hlen := ciMatch_length (k0 :: ks) (c :: cs) rest hm
          have hdv := dropValue_length rest
          congr 1
          refine ih m' (dropValue rest) ?_ ?_ <;>
            (simp only [List.length_cons] at hlen h1 h2; omega)
        | none =>
          simp only [hm]
          congr 1
          refine ih m' cs ?_ ?_ <;>
            (simp only [List.length_cons] at h1 h2; omega)

lemma ciMatch_self_append (p t : List Char) : ciMatch p (p ++ t) = some t := by
  induction p with
  | nil => rfl
  | cons c cs ih => simp [ciMatch, ih]

lemma replaceKeyAux_skip (k0 : Char) (ks repl : List Char) (a b : List Char) :
    ∀ fuel : Nat, (a ++ b).length ≤ fuel → (∀ c ∈ a, c.toLower ≠ k0.toLower) →
      replaceKeyAux k0 ks repl fuel (a ++ b) =
        a ++ replaceKeyAux k0 ks repl (fuel - a.length) b := by
  induction a with
  | nil =>
    intro fuel h1 h2
    simp
  | cons c a ih =>
    intro fuel h1 h2
    cases fuel with
    | zero =>
      exfalso
      simp [List.length_append] at h1
    | succ f =>
      have hc := h2 c (by simp)
      have hmatch : ciMatch (k0 :: ks) (c :: (a ++ b)) = none := by
        simp [ciMatch, Ne.symm hc]
      rw [List.cons_append]
      simp only [replaceKeyAux, hmatch]
      rw [ih f (by simp [List.length_append] at h1 ⊢; omega)
        (fun x hx => h2 x (by simp [hx]))]
      simp only [List.length_cons, Nat.succ_sub_succ]
      rfl

lemma replaceKeyAux_no_match (k0 : Char) (ks repl : List Char) (l : List Char) :
    ∀ fuel : Nat, l.length ≤ fuel → (∀ c ∈ l, c.toLower ≠ k0.toLower) →
      replaceKeyAux k0 ks repl fuel l = l := by
  induction l with
  | nil =>
    intro fuel h1 h2
    simp [replaceKeyAux]
  | cons c l ih =>
    intro fuel h1 h2
    cases fuel with
    | zero => simp at h1
    | succ f =>
      have hc := h2 c (by simp)
      have hmatch : ciMatch (k0 :: ks) (c :: l) = none := by
        simp [ciMatch, Ne.symm hc]
      simp only [replaceKeyAux, hmatch]
      rw [ih f (by simp at h1; omega) (fun x hx => h2 x (by simp [hx]))]

lemma replaceKeyAux_match (k0 : Char) (ks repl : List Char) (c : Char)
    (cs rest : List Char) (fuel : Nat) (hfuel : 1 ≤ fuel)
    (h : ciMatch (k0 :: ks) (c :: cs) = some rest) :
    replaceKeyAux k0 ks repl fuel (c :: cs) =
      repl ++ replaceKeyAux k0 ks repl (fuel - 1) (dropValue rest) := by
  cases fuel with
  | zero => exact absurd hfuel (by omega)
  | succ f => simp only [replaceKeyAux, h, Nat.succ_sub_one]

lemma dropValue_append (v : List Char) (d : Char) (rest : List Char)
    (hv : ∀ c ∈ v, isValueChar c = true) (hd : isValueChar d = false) :
    dropValue (v ++ d :: rest) = d :: rest := by
  induction v with
  | nil => simp [dropValue, hd]
  | cons c v ih =>
    have hc := hv c (by simp)
    rw [List.cons_append]
    simp [dropValue, hc, ih (fun x hx => hv x (by simp [hx]))]

lemma replaceAll_eq (key repl s : String) (k0 : Char) (ks : List Char)
    (hk : key.data = k0 :: ks) :
    replaceAll key repl s =
      String.mk (replaceKeyAux k0 ks repl.data s.data.length s.data) := by
  unfold replaceAll
  rw [hk]

/-- Declarative, fuel-free form of one global replacement pass, written
from the behavioural description rather than from the code: scan the text
left to right; wherever the key `k0 :: ks` matches case-insensitively, the
key together with the greedy run of non-whitespace, non-ampersand value
characters is replaced by the fixed literal `repl` and the scan resumes
after the consumed value; every other character is copied unchanged.
`replaceKeyAux_eq_redactSpec` identifies the fuelled source model with
this declarative description on every input. -/
def redactSpec (k0 : Char) (ks repl : List Char) : List Char → List Char
  | [] => []
  | c :: cs =>
    match hm : ciMatch (k0 :: ks) (c :: cs) with
    | some rest => repl ++ redactSpec k0 ks repl (dropValue rest)
    | none => c :: redactSpec k0 ks repl cs
termination_by l => l.length
decreasing_by
  · have h1 := ciMatch_length (k0 :: ks) (c :: cs) rest hm
    have h2 := dropValue_length rest
    simp only [List.length_cons] at h1 ⊢
    omega
  · simp only [List.length_cons]
    omega

lemma replaceKeyAux_eq_redactSpec (k0 : Char) (ks repl : List Char) :
    ∀ (fuel : Nat) (l : List Char), l.length ≤ fuel →
      replaceKeyAux k0 ks repl fuel l = redactSpec k0 ks repl l := by
  intro fuel
  induction fuel with
  | zero =>
    intro l h
    cases l with
    | nil => simp [replaceKeyAux, redactSpec]
    | cons c cs => simp at h
  | succ n ih =>
    intro l h
    cases l with
    | nil => simp [replaceKeyAux, redactSpec]
    | cons c cs =>
      cases hm : ciMatch (k0 :: ks) (c :: cs) with
      | some rest =>
        have h1 := ciMatch_length (k0 :: ks) (c :: cs) rest hm
        have h2 := dropValue_length rest
        rw [replaceKeyAux_match k0 ks repl c cs rest (n + 1) (by omega) hm]
        rw [redactSpec]
        split
        · rename_i rest2 heq
          rw [hm] at heq
          obtain rfl : rest = rest2 := by injection heq
          simp only [Nat.add_sub_cancel]
          congr 1
          exact ih (dropValue rest) (by simp only [List.length_cons] at h h1; omega)
        · rename_i heq
          rw [hm] at heq
          simp at heq
      | none =>
        simp only [replaceKeyAux, hm]
        rw [redactSpec]
        split
        · rename_i rest2 heq
          rw [hm] at heq
          simp at heq
        · congr 1
          exact ih cs (by simp only [List.length_cons] at h; omega)

lemma replaceAll_redactSpec (key repl s : String) (k0 : Char) (ks : List Char)
    (hk : key.data = k0 :: ks) :
    replaceAll key repl s = String.mk (redactSpec k0 ks repl.data s.data) := by
  rw [replaceAll_eq key repl s k0 ks hk,
    replaceKeyAux_eq_redactSpec k0 ks repl.data s.data.length s.data (le_refl _)]

lemma redactSpec_no_match_id (k0 : Char) (ks repl : List Char) :
    ∀ l : List Char, (∀ i, i < l.length → ciMatch (k0 :: ks) (l.drop i) = none) →
      redactSpec k0 ks repl l = l := by
  intro l
  induction l with
  | nil =>
    intro h
    simp [redactSpec]
  | cons c cs ih =>
    intro h
    have h0 : ciMatch (k0 :: ks) (c :: cs) = none := by
      have := h 0 (by simp)
      simpa using this
    rw [redactSpec]
    split
    · rename_i rest heq
      rw [h0] at heq
      simp at heq
    · congr 1
      refine ih (fun i hi => ?_)
      have := h (i + 1) (by simp only [List.length_cons]; omega)
      simpa using this

/-- C4 counterexample: on `"PASSWORD=abc"` the code replaces the entire
case-insensitive match with the lowercase literal `password=***`, so the
part of the string outside the value (the uppercase key `PASSWORD=`) does
not survive unchanged, contrary to the claim that only the value is
replaced by the mask. -/
theorem sanitizeMessage_case_counterexample :
    sanitizeMessage "PASSWORD=abc" = "password=***" ∧
    sanitizeMessage "PASSWORD=abc" ≠ "PASSWORD=***" := by
  refine ⟨by decide, by decide⟩

lemma sanitizeMessage_template (v : List Char) (hv : ∀ c ∈ v, isValueChar c = true) :
    sanitizeMessage
      (String.mk ("login failed: password=".data ++ v ++ "&user=bob".data)) =
      "login failed: password=***&user=bob" := by
  have h14 : ("login failed: ".data).length = 14 := by decide
  have h9b : ("&user=bob".data).length = 9 := by decide
  have hstep1 : replaceAll "password=" "password=***"
      (String.mk ("login failed: password=".data ++ v ++ "&user=bob".data)) =
      "login failed: password=***&user=bob" := by
    rw [replaceAll_eq "password=" "password=***"
      (String.mk ("login failed: password=".data ++ v ++ "&user=bob".data))
      'p' "assword=".data (by decide)]
    show String.mk (replaceKeyAux 'p' "assword=".data "password=***".data
      ("login failed: password=".data ++ v ++ "&user=bob".data).length
      ("login failed: password=".data ++ v ++ "&user=bob".data)) =
      "login failed: password=***&user=bob"
    have hsplit : "login failed: password=".data ++ v ++ "&user=bob".data =
        "login failed: ".data ++ ("password=".data ++ (v ++ "&user=bob".data)) := by
      have h : ("login failed: password=".data : List Char) =
          "login failed: ".data ++ "password=".data := by decide
      rw [h]
      simp [List.append_assoc]
    rw [hsplit]
    rw [show ("login failed: ".data ++
        ("password=".data ++ (v ++ "&user=bob".data))).length = v.length + 32 from by
      have h9p : ("password=".data).length = 9 := by decide
      simp only [List.length_append, h14, h9p, h9b]
      omega]
    rw [replaceKeyAux_skip 'p' "assword=".data "password=***".data
      "login failed: ".data ("password=".data ++ (v ++ "&user=bob".data))
      (v.length + 32)
      (by
        have h9p : ("password=".data).length = 9 := by decide
        simp only [List.length_append, h14, h9p, h9b]
        omega)
      (by decide)]
    rw [show v.length + 32 - ("login failed: ".data).length = v.length + 18 from by
      rw [h14]
      omega]
    rw [show ("password=".data ++ (v ++ "&user=bob".data) : List Char) =
        'p' :: ("assword=".data ++ (v ++ "&user=bob".data)) from rfl]
    rw [replaceKeyAux_match 'p' "assword=".data "password=***".data 'p'
      ("assword=".data ++ (v ++ "&user=bob".data)) (v ++ "&user=bob".data)
      (v.length + 18) (by omega)
      (ciMatch_self_append ('p' :: "assword=".data) (v ++ "&user=bob".data))]
    rw [show v.length + 18 - 1 = v.length + 17 from by omega]
    rw [show ("&user=bob".data : List Char) = '&' :: "user=bob".data from by decide]
    rw [dropValue_append v '&' "user=bob".data hv (by decide)]
    rw [replaceKeyAux_no_match 'p' "assword=".data "password=***".data
      ('&' :: "user=bob".data) (v.length + 17)
      (by
        have h : ('&' :: "user=bob".data).length = 9 := by decide
        omega)
      (by decide)]
    decide
  show replaceAll "key=" "key=***"
    (replaceAll "token=" "token=***"
      (replaceAll "password=" "password=***"
        (String.mk ("login failed: password=".data ++ v ++ "&user=bob".data)))) =
    "login failed: password=***&user=bob"
  rw [hstep1]
  decide

/-- C4 amended: `sanitizeMessage` performs three sequential global
case-insensitive replaces — `password=` first, then `token=`, then
`key=` — and for every message each pass replaces every substring made of
the key (matched case-insensitively) followed by the contiguous greedy run
of non-whitespace, non-ampersand characters by the entire lowercase
literal `password=***` / `token=***` / `key=***` (normalizing the matched
key's case), copying all characters outside the matches unchanged. The
conjuncts state: the full equivalence, for every message, of the code with
the declarative scan `redactSpec`; the identity of `sanitizeMessage` on
every message in which no position matches any of the three keys; the
masking of the spec's template for every secret value run; the spec's
concrete example; and a concrete example exercising the `token=` and
`key=` keys with case normalization. -/
theorem sanitizeMessage_spec (m : String) :
    sanitizeMessage m =
      String.mk (redactSpec 'k' "ey=".data "key=***".data
        (redactSpec 't' "oken=".data "token=***".data
          (redactSpec 'p' "assword=".data "password=***".data m.data))) ∧
    (∀ l : List Char,
      (∀ i, i < l.length →
        ciMatch "password=".data (l.drop i) = none ∧
        ciMatch "token=".data (l.drop i) = none ∧
        ciMatch "key=".data (l.drop i) = none) →
      sanitizeMessage (String.mk l) = String.mk l) ∧
    (∀ v : List Char, (∀ c ∈ v, isValueChar c = true) →
      sanitizeMessage
        (String.mk ("login failed: password=".data ++ v ++ "&user=bob".data)) =
        "login failed: password=***&user=bob") ∧
    sanitizeMessage "login failed: password=abc123&user=bob" =
      "login failed: password=***&user=bob" ∧
    sanitizeMessage "user=Bob&TOKEN=t1 Key=k2" = "user=Bob&token=*** key=***" := by
  refine ⟨?_, ?_, sanitizeMessage_template, by decide, by decide⟩
  · show replaceAll "key=" "key=***"
      (replaceAll "token=" "token=***" (replaceAll "password=" "password=***" m)) = _
    rw [replaceAll_redactSpec "password=" "password=***" m 'p' "assword=".data (by decide)]
    rw [replaceAll_redactSpec "token=" "token=***" _ 't' "oken=".data (by decide)]
    rw [replaceAll_redactSpec "key=" "key=***" _ 'k' "ey=".data (by decide)]
  · intro l hl
    have hdata : (String.mk l).data = l := rfl
    show replaceAll "key=" "key=***"
      (replaceAll "token=" "token=***"
        (replaceAll "password=" "password=***" (String.mk l))) = String.mk l
    rw [replaceAll_redactSpec "password=" "password=***" (String.mk l)
      'p' "assword=".data (by decide), hdata,
      redactSpec_no_match_id 'p' "assword=".data "password=***".data l
        (fun i hi => (hl i hi).1)]
    rw [replaceAll_redactSpec "token=" "token=***" (String.mk l)
      't' "oken=".data (by decide), hdata,
      redactSpec_no_match_id 't' "oken=".data "token=***".data l
        (fun i hi => (hl i hi).2.1)]
    rw [replaceAll_redactSpec "key=" "key=***" (String.mk l)
      'k' "ey=".data (by decide), hdata,
      redactSpec_no_match_id 'k' "ey=".data "key=***".data l
        (fun i hi => (hl i hi).2.2)]

/-- Witness for `sanitizeMessage_spec`: the inner hypotheses are
discharged at the match-free message `user=bob` and the secret run
`abc123`. -/
theorem sanitizeMessage_spec_witness :
    (∀ i, i < ("user=bob".data).length →
      ciMatch "password=".data ("user=bob".data.drop i) = none ∧
      ciMatch "token=".data ("user=bob".data.drop i) = none ∧
      ciMatch "key=".data ("user=bob".data.drop i) = none) ∧
    sanitizeMessage (String.mk "user=bob".data) = String.mk "user=bob".data ∧
    (∀ c ∈ "abc123".data, isValueChar c = true) ∧
    sanitizeMessage
      (String.mk ("login failed: password=".data ++ "abc123".data ++ "&user=bob".data)) =
      "login failed: password=***&user=bob" ∧
    sanitizeMessage "user=Bob&TOKEN=t1 Key=k2" = "user=Bob&token=*** key=***" :=
  ⟨by decide,
   (sanitizeMessage_spec "user=bob").2.1 "user=bob".data (by decide),
   by decide,
   (sanitizeMessage_spec "user=bob").2.2.1 "abc123".data (by decide),
   (sanitizeMessage_spec "user=bob").2.2.2.2⟩
